/-
Verification of the procurement backend (Django) against its natural-language
specification.  The relevant Python code from `backend/procurement/` is given a
shallow embedding: model classes become structures, view/serializer logic
becomes pure functions over explicit state, monetary values become rationals
(`Rat`) — exactly for `Decimal` arithmetic, and as the exact rational values
of the IEEE-754 doubles for `float` code paths — and raised
`ValidationError`s become `Except`/error constructors.  HTTP responses are modelled by small inductive
result types carrying the status code and message.
-/
import Mathlib

/-! ## Data model (procurement/models.py) -/

/-- `ApprovalLevel` row (models.py): a configurable approval level of a request
type.  `unique_together = [request_type, level_number]` means the level number
identifies the level within one request type, so we use `levelNumber` as the
level's identity. -/
structure ApprovalLevel where
  levelNumber : Nat
  approverRole : String
  isRequired : Bool
deriving DecidableEq, Repr

/-- `Approval` row (models.py) restricted to the fields the approval workflow
reads: the acting approver, the level the decision was recorded at, and the
action string (`"approved"` or `"rejected"`). -/
structure Approval where
  approver : Nat
  levelNumber : Nat
  action : String
deriving DecidableEq, Repr

/-- The caller (`request.user` plus its optional `UserProfile` row).
`profileRole = none` models a user with no profile row
(`UserProfile.DoesNotExist`). -/
structure Caller where
  id : Nat
  isAuthenticated : Bool
  isSuperuser : Bool
  profileRole : Option String
deriving DecidableEq, Repr

/-- `RequestItem` row (models.py): description, quantity
(`PositiveIntegerField`), unit price and total price (`DecimalField`,
modelled as `Rat` — Python `Decimal` arithmetic on these values is exact). -/
structure RequestItem where
  description : String
  quantity : Int
  unit_price : Rat
  total_price : Rat
deriving DecidableEq, Repr

/-- `RequestItem.save` (models.py lines 239-246): before the row is written,
`total_price` is recomputed as `Decimal(str(quantity)) * Decimal(str(unit_price))`,
overwriting whatever value the field held. -/
def RequestItem.save (it : RequestItem) : RequestItem :=
  { it with total_price := (it.quantity : Rat) * it.unit_price }

/-- The `post_save` signal `update_purchase_request_status_on_rejection`
(models.py lines 317-322): given whether the `Approval` instance was just
created, its action, whether `purchase_request_id` is set (truthy), and the
owning request's current status, it returns the request's status after the
signal runs. -/
def update_purchase_request_status_on_rejection
    (created : Bool) (action : String) (hasPurchaseRequestId : Bool)
    (currentStatus : String) : String :=
  if created && action == "rejected" && hasPurchaseRequestId then "rejected"
  else currentStatus

/-- `PurchaseRequest.can_be_edited` (models.py lines 189-192): a request can be
edited only while pending. -/
def can_be_edited (status : String) : Bool :=
  status == "pending"

/-- `PurchaseRequest.is_final_status` (models.py lines 194-197). -/
def is_final_status (status : String) : Bool :=
  status == "approved" || status == "rejected"

/-! ## Permission policies (procurement/permissions.py) -/

/-- `IsApproverLevel1.has_permission` (permissions.py lines 21-31): requires an
authenticated caller whose profile role is exactly `approver_level_1`; there is
no superuser branch, and a missing profile row is caught and denied. -/
def IsApproverLevel1.has_permission (c : Caller) : Bool :=
  if !c.isAuthenticated then false
  else
    match c.profileRole with
    | some role => role == "approver_level_1"
    | none => false

/-- `IsApproverLevel2.has_permission` (permissions.py lines 34-44): same as
level 1 with role `approver_level_2`. -/
def IsApproverLevel2.has_permission (c : Caller) : Bool :=
  if !c.isAuthenticated then false
  else
    match c.profileRole with
    | some role => role == "approver_level_2"
    | none => false

/-- `IsApprover.has_permission` (permissions.py lines 63-76): superusers pass;
otherwise the profile role must be one of the two approver roles. -/
def IsApprover.has_permission (c : Caller) : Bool :=
  if !c.isAuthenticated then false
  else if c.isSuperuser then true
  else
    match c.profileRole with
    | some role => role == "approver_level_1" || role == "approver_level_2"
    | none => false

/-! ## Settings (procure_to_pay/settings.py lines 215-216, defaults) -/

def MAX_UPLOAD_SIZE : Nat := 10485760

def ALLOWED_FILE_TYPES : List String := ["pdf", "jpg", "jpeg", "png"]

/-! ## Proforma file validation (procurement/serializers.py lines 433-449) -/

/-- An uploaded file as the serializer sees it: a name and a byte size. -/
structure UploadedFile where
  name : String
  size : Nat
deriving DecidableEq, Repr

/-- The two `ValidationError`s `validate_proforma` can raise; the constructors
carry the data interpolated into the Python message strings. -/
inductive FileValidationError where
  | sizeExceeded (maxUploadSize : Nat)
  | typeNotAllowed (allowedTypes : List String)
deriving DecidableEq, Repr

/-- Python `str.split('.')` on the character list of a name: always returns at
least one (possibly empty) segment. -/
def splitOnDot : List Char → List (List Char)
  | [] => [[]]
  | c :: cs =>
      let rest := splitOnDot cs
      if c = '.' then [] :: rest
      else
        match rest with
        | [] => [[c]]
        | r :: rs => (c :: r) :: rs

/-- `value.name.split('.')[-1].lower()`: the final dot-separated component of
the file name, lowercased (ASCII lowering, which covers the configured
extension sets). -/
def fileExtension (name : String) : String :=
  String.mk (((splitOnDot name.toList).getLastD []).map Char.toLower)

/-- `PurchaseRequestCreateSerializer.validate_proforma` (serializers.py lines
433-449): a missing file passes; otherwise the size is checked strictly
against `MAX_UPLOAD_SIZE` first, then the lowercased extension against
`ALLOWED_FILE_TYPES`. -/
def validate_proforma (maxUploadSize : Nat) (allowedFileTypes : List String)
    (value : Option UploadedFile) : Except FileValidationError (Option UploadedFile) :=
  match value with
  | none => .ok none
  | some f =>
      if f.size > maxUploadSize then
        .error (.sizeExceeded maxUploadSize)
      else if fileExtension f.name ∉ allowedFileTypes then
        .error (.typeNotAllowed allowedFileTypes)
      else .ok (some f)

/-! ## Purchase-request update (views.py lines 541-573, serializers.py 540-546) -/

/-- The fields of the target `PurchaseRequest` the update fast path reads. -/
structure UpdateInstance where
  status : String
  createdBy : Nat
deriving DecidableEq, Repr

/-- `PurchaseRequestUpdateSerializer.validate` (serializers.py lines 540-546):
raises for any instance that is not editable (not pending), with no superuser
exemption — the serializer does not consult the caller at all. -/
def PurchaseRequestUpdateSerializer.validate (instanceStatus : String) :
    Except String Unit :=
  if !(can_be_edited instanceStatus) then
    .error "Cannot edit request that is not in pending status."
  else .ok ()

/-- Outcome of the update view: an HTTP error (status code and message) or a
successful update. -/
inductive UpdateViewResult where
  | error (httpStatus : Nat) (msg : String)
  | success
deriving DecidableEq, Repr

/-- `PurchaseRequestViewSet.update` (views.py lines 541-573) up to the point
where the serializer's validation has run: non-superusers must own the request
and the request must be editable; then `serializer.is_valid(raise_exception=True)`
runs `PurchaseRequestUpdateSerializer.validate`, whose `ValidationError`
becomes an HTTP 400 for every caller, superuser included. -/
def updatePurchaseRequestView (user : Caller) (inst : UpdateInstance) :
    UpdateViewResult :=
  if !user.isSuperuser && inst.createdBy != user.id then
    .error 403 "You can only update your own requests."
  else if !user.isSuperuser && !(can_be_edited inst.status) then
    .error 400 "Cannot update request that is not in pending status."
  else
    match PurchaseRequestUpdateSerializer.validate inst.status with
    | .error m => .error 400 m
    | .ok _ => .success

/-! ## Theorems for the model layer -/

/-- C5: For every RequestItem, after every save the persisted total_price
equals quantity times unit_price exactly, and any caller-supplied total_price
is overwritten (the saved row does not depend on the incoming total_price). -/
theorem requestItem_save_total_price (it : RequestItem) :
    (RequestItem.save it).total_price = (it.quantity : Rat) * it.unit_price ∧
    ∀ t : Rat, RequestItem.save { it with total_price := t } = RequestItem.save it := by
  constructor
  · rfl
  · intro t
    rfl

/-- C2: A newly created Approval with action `"rejected"` (every `Approval` row
has a non-null `purchase_request` foreign key, so `purchase_request_id` is
truthy) sets the owning request's status to `"rejected"` unconditionally —
whatever the current status is.  The signal fires on record creation itself,
separately from the approval endpoint's status update. -/
theorem rejection_signal_sets_status_rejected (currentStatus : String) :
    update_purchase_request_status_on_rejection true "rejected" true currentStatus
      = "rejected" := by
  rfl

/-- C6: The level-1 and level-2 approver policies grant access iff the caller
is authenticated and the profile role matches exactly; in particular a
superuser with a non-matching (or missing) profile role is denied, and a
caller with no profile row is denied (the lookup failure is caught, the
function totally returns `false`). -/
theorem approver_level_policies_exact_role (c : Caller) :
    (IsApproverLevel1.has_permission c = true ↔
      c.isAuthenticated = true ∧ c.profileRole = some "approver_level_1") ∧
    (IsApproverLevel2.has_permission c = true ↔
      c.isAuthenticated = true ∧ c.profileRole = some "approver_level_2") := by
  obtain ⟨i, auth, su, role⟩ := c
  cases auth <;> cases role <;>
    simp [IsApproverLevel1.has_permission, IsApproverLevel2.has_permission,
      beq_iff_eq]

/-- C7: Proforma validation accepts a file of size exactly the configured
maximum whose lowercased extension is allowed (so `.PDF` is accepted when
`pdf` is allowed — acceptance is case-insensitive); a file one byte over the
maximum is rejected with the size-exceeded error; a file within the size limit
whose lowercased extension is outside the allow-list is rejected with the
type-not-allowed error. -/
theorem validate_proforma_size_and_type (f : UploadedFile) :
    (f.size ≤ MAX_UPLOAD_SIZE → fileExtension f.name ∈ ALLOWED_FILE_TYPES →
      validate_proforma MAX_UPLOAD_SIZE ALLOWED_FILE_TYPES (some f) = .ok (some f)) ∧
    (f.size = MAX_UPLOAD_SIZE + 1 →
      validate_proforma MAX_UPLOAD_SIZE ALLOWED_FILE_TYPES (some f)
        = .error (.sizeExceeded MAX_UPLOAD_SIZE)) ∧
    (f.size ≤ MAX_UPLOAD_SIZE → fileExtension f.name ∉ ALLOWED_FILE_TYPES →
      validate_proforma MAX_UPLOAD_SIZE ALLOWED_FILE_TYPES (some f)
        = .error (.typeNotAllowed ALLOWED_FILE_TYPES)) := by
  refine ⟨?_, ?_, ?_⟩
  · intro hsize hext
    simp [validate_proforma, Nat.not_lt.mpr hsize, hext]
  · intro hsize
    simp [validate_proforma, hsize]
  · intro hsize hext
    simp [validate_proforma, Nat.not_lt.mpr hsize, hext]

/-- Witness for `validate_proforma_size_and_type`: a 10485760-byte `.PDF` file
is accepted, a 10485761-byte `.pdf` file hits the size error, and a `.exe`
file hits the type error. -/
theorem validate_proforma_size_and_type_witness :
    validate_proforma MAX_UPLOAD_SIZE ALLOWED_FILE_TYPES
        (some ⟨"invoice.PDF", 10485760⟩) = .ok (some ⟨"invoice.PDF", 10485760⟩) ∧
    validate_proforma MAX_UPLOAD_SIZE ALLOWED_FILE_TYPES
        (some ⟨"invoice.pdf", 10485761⟩)
      = .error (.sizeExceeded MAX_UPLOAD_SIZE) ∧
    validate_proforma MAX_UPLOAD_SIZE ALLOWED_FILE_TYPES
        (some ⟨"setup.exe", 100⟩) = .error (.typeNotAllowed ALLOWED_FILE_TYPES) :=
  ⟨(validate_proforma_size_and_type ⟨"invoice.PDF", 10485760⟩).1 (by decide) (by decide),
   (validate_proforma_size_and_type ⟨"invoice.pdf", 10485761⟩).2.1 (by decide),
   (validate_proforma_size_and_type ⟨"setup.exe", 100⟩).2.2 (by decide) (by decide)⟩

/-- C3 evidence: an update attempt against an approved request returns HTTP 400
for a non-superuser owner, but ALSO for a superuser — the view skips its own
pending check for superusers, yet `PurchaseRequestUpdateSerializer.validate`
raises "Cannot edit request that is not in pending status." with no superuser
exemption, so the documented superuser bypass never reaches the update. -/
theorem superuser_update_of_final_request_still_400 :
    updatePurchaseRequestView
        ⟨7, true, true, none⟩ ⟨"approved", 2⟩
      = .error 400 "Cannot edit request that is not in pending status." ∧
    updatePurchaseRequestView
        ⟨2, true, false, some "staff"⟩ ⟨"approved", 2⟩
      = .error 400 "Cannot update request that is not in pending status." :=
  ⟨rfl, rfl⟩

/-! ## Items handling (serializers.py: ItemsField, create lines 459-505,
update lines 548-596) -/

/-- The fields the serializers read off one items-list entry.  `description`
is `none` when the key is absent (Python then uses `''`; `str(...)` itself
never raises).  For `quantity` and `unit_price` the outer `Option` is key
presence (defaults `1` and `0`); the inner `Option` is the result of the
`int(...)` / `float(...)` coercion, `none` meaning the coercion raises. -/
structure ItemFields where
  description : Option String
  quantity : Option (Option Int)
  unit_price : Option (Option Rat)
deriving DecidableEq, Repr

/-- A runtime entry of the items list: a dict-like value, a string, or
anything else. -/
inductive ItemData where
  | dict (fields : ItemFields)
  | str (s : String)
  | other
deriving DecidableEq, Repr

/-- Python `str.strip()` on the char list: drop whitespace from both ends. -/
def stripChars (l : List Char) : List Char :=
  ((l.dropWhile Char.isWhitespace).reverse.dropWhile Char.isWhitespace).reverse

/-- Python `str.strip()`. -/
def stripStr (s : String) : String :=
  String.mk (stripChars s.toList)

/-- One iteration of the item loop in `PurchaseRequestCreateSerializer.create`
(serializers.py lines 478-503) on a dict-like entry: `description` is
stringified and stripped, `quantity` and `unit_price` coerced (a raise is
caught and the item skipped), and the `RequestItem` is created only if the
stripped description is non-empty; `objects.create` runs `RequestItem.save`,
which computes `total_price`. -/
def createItemFrom (f : ItemFields) : Option RequestItem :=
  let description := stripStr (f.description.getD "")
  match f.quantity.getD (some 1) with
  | none => none
  | some quantity =>
      match f.unit_price.getD (some 0) with
      | none => none
      | some unit_price =>
          if description ≠ "" then
            some (RequestItem.save ⟨description, quantity, unit_price, 0⟩)
          else none

/-- The item loop of `PurchaseRequestCreateSerializer.create`: dict-like
entries go through `createItemFrom`; strings and any other values are logged
and skipped. -/
def createItems (items : List ItemData) : List RequestItem :=
  items.filterMap fun it =>
    match it with
    | .dict f => createItemFrom f
    | .str _ => none
    | .other => none

/-- One iteration of the item loop in `PurchaseRequestUpdateSerializer.update`
(serializers.py lines 571-594) on a dict-like entry: the same field coercions
as at creation, but with NO `.strip()` and NO empty-description guard — the
`RequestItem` is created unconditionally once the coercions succeed. -/
def updateItemFrom (f : ItemFields) : Option RequestItem :=
  let description := f.description.getD ""
  match f.quantity.getD (some 1) with
  | none => none
  | some quantity =>
      match f.unit_price.getD (some 0) with
      | none => none
      | some unit_price =>
          some (RequestItem.save ⟨description, quantity, unit_price, 0⟩)

/-- The item loop of `PurchaseRequestUpdateSerializer.update`, parameterised by
the behaviour of `json.loads` on a single entry: dict-like entries are created
via `updateItemFrom`; string entries are JSON-parsed and then created (a parse
or coercion raise is caught and the entry skipped); other entries match no
branch and are silently dropped. -/
def updateItems (jsonLoadsItem : String → Option ItemFields)
    (items : List ItemData) : List RequestItem :=
  items.filterMap fun it =>
    match it with
    | .dict f => updateItemFrom f
    | .str s =>
        match jsonLoadsItem s with
        | some f => updateItemFrom f
        | none => none
    | .other => none

/-- The items step of `PurchaseRequestUpdateSerializer.update` (lines 566-594):
when an items list was supplied, all existing `RequestItem` rows are deleted
and replaced by the newly created ones; when not supplied, items are left
alone. -/
def updateRequestItems (jsonLoadsItem : String → Option ItemFields)
    (existing : List RequestItem) (itemsData : Option (List ItemData)) :
    List RequestItem :=
  match itemsData with
  | none => existing
  | some l => updateItems jsonLoadsItem l

/-! ## Items coercion on create (serializers.py: ItemsField lines 274-297,
PurchaseRequestCreateSerializer.to_internal_value lines 411-431) -/

/-- Result of Python `json.loads` restricted to what `ItemsField` inspects:
a decode failure, a JSON list, or some other JSON value. -/
inductive JsonItemsResult where
  | decodeError
  | list (items : List ItemData)
  | nonList
deriving DecidableEq, Repr

/-- The possible runtime shapes of the incoming `items` value. -/
inductive ItemsValue where
  | str (s : String)
  | list (items : List ItemData)
  | other
deriving DecidableEq, Repr

/-- `ItemsField.to_internal_value` (serializers.py lines 277-297),
parameterised by `json.loads`: a string is parsed — a JSON list is returned,
any other JSON value becomes `[]`, and a decode error raises
`ValidationError`; a list is returned unchanged; anything else becomes `[]`. -/
def ItemsField.to_internal_value (jsonLoads : String → JsonItemsResult) :
    ItemsValue → Except String (List ItemData)
  | .str s =>
      match jsonLoads s with
      | .list l => .ok l
      | .nonList => .ok []
      | .decodeError => .error "Invalid JSON format for items"
  | .list l => .ok l
  | .other => .ok []

/-- The items part of `PurchaseRequestCreateSerializer.to_internal_value`
(serializers.py lines 411-431): a present `items` value is pre-parsed through
`ItemsField`, any exception (including the `ValidationError` raised for
malformed JSON) being swallowed into `[]`; an absent one becomes `[]`.  The
resulting list then passes through the declared `ItemsField` once more inside
`super().to_internal_value`, which returns a list unchanged — so validation
never fails on the items field. -/
def createSerializerItemsInternal (jsonLoads : String → JsonItemsResult)
    (dataItems : Option ItemsValue) : Except String (List ItemData) :=
  let preParsed : List ItemData :=
    match dataItems with
    | some v =>
        match ItemsField.to_internal_value jsonLoads v with
        | .ok l => l
        | .error _ => []
    | none => []
  ItemsField.to_internal_value jsonLoads (.list preParsed)

/-- C4 counterexample: an items list containing one dict entry with an empty
description.  On update this entry IS persisted (as a RequestItem with empty
description, quantity 1, unit price 0), while the creation path skips it —
so update item handling is not the same as at creation, and empty-description
items are not skipped on update. -/
theorem update_items_empty_description_cx :
    updateItems (fun _ => none) [ItemData.dict ⟨some "", none, none⟩]
      = [⟨"", 1, 0, 0⟩] ∧
    createItems [ItemData.dict ⟨some "", none, none⟩] = [] := by
  constructor
  · simp [updateItems, updateItemFrom, RequestItem.save, mul_zero]
  · rfl

/-- C4 (amended): on update with a supplied items list, a dict-like entry
whose quantity and unit-price coercions succeed is always persisted, with its
description taken verbatim (not stripped) and no empty-description skip,
whereas the creation path skips any entry whose stripped description is
empty. -/
theorem update_items_persist_regardless_of_description
    (d : String) (q : Int) (p : Rat) :
    updateItemFrom ⟨some d, some (some q), some (some p)⟩
      = some (RequestItem.save ⟨d, q, p, 0⟩) ∧
    (stripStr d = "" →
      createItemFrom ⟨some d, some (some q), some (some p)⟩ = none) := by
  constructor
  · rfl
  · intro h
    simp [createItemFrom, h]

/-- Witness for `update_items_persist_regardless_of_description` at the empty
description, quantity 2, unit price 3. -/
theorem update_items_persist_regardless_of_description_witness :
    updateItemFrom ⟨some "", some (some 2), some (some 3)⟩
      = some (RequestItem.save ⟨"", 2, 3, 0⟩) ∧
    createItemFrom ⟨some "", some (some 2), some (some 3)⟩ = none :=
  ⟨(update_items_persist_regardless_of_description "" 2 3).1,
   (update_items_persist_regardless_of_description "" 2 3).2 (by decide)⟩

/-- C9: when the `items` value of a creation request is a string on which
`json.loads` fails, the serializer's items coercion still succeeds (no
validation error on the items field), yielding the empty list, and the item
creation loop then creates zero RequestItems from that field. -/
theorem create_invalid_items_json_coerced_to_empty
    (jsonLoads : String → JsonItemsResult) (s : String)
    (h : jsonLoads s = .decodeError) :
    createSerializerItemsInternal jsonLoads (some (.str s)) = .ok [] ∧
    createItems [] = [] := by
  constructor
  · simp [createSerializerItemsInternal, ItemsField.to_internal_value, h]
  · rfl

/-- Witness for `create_invalid_items_json_coerced_to_empty`: a `json.loads`
that rejects every string, applied to a concrete malformed payload. -/
theorem create_invalid_items_json_coerced_to_empty_witness :
    createSerializerItemsInternal (fun _ => .decodeError) (some (.str "not json"))
      = .ok [] ∧
    createItems [] = [] :=
  create_invalid_items_json_coerced_to_empty (fun _ => .decodeError) "not json" rfl

/-! ## Receipt validation (document_processing.py lines 938-1017).
The values on these code paths are IEEE-754 doubles (`float(...)` coercions
and float literals).  Each double is represented here by the exact rational
number it denotes, and the subtractions below are modelled as exact rational
subtraction — which coincides with the IEEE result whenever the double
subtraction is exact, in particular (Sterbenz's lemma) whenever the two
operands lie within a factor of two of each other, as at the inputs evaluated
in the theorems. -/

/-- A line item extracted from the receipt (`receipt_data['items']` entries
after the `float(...)` coercions); each field holds the exact rational value
of the corresponding double. -/
structure ReceiptItem where
  description : String
  quantity : Rat
  unit_price : Rat
deriving DecidableEq, Repr

/-- The extracted receipt data the comparison step reads. -/
structure ReceiptData where
  items : List ReceiptItem
  total : Rat
deriving DecidableEq, Repr

/-- A value placed in a discrepancy's `expected`/`actual` slots. -/
inductive DiscrepancyValue where
  | num (value : Rat)
  | count (value : Nat)
  | str (value : String)
deriving DecidableEq, Repr

/-- One entry of the `discrepancies` list: its `type` tag and the
`expected`/`actual` pair. -/
structure Discrepancy where
  dtype : String
  expected : DiscrepancyValue
  actual : DiscrepancyValue
deriving DecidableEq, Repr

/-- The Python float literal `0.01` denotes the IEEE-754 double nearest 0.01,
whose exact value is 5764607523034235 / 2^59 — slightly more than 1/100. -/
def pyFloat0_01 : Rat := 5764607523034235 / 576460752303423488

/-- `tolerance = 0.01` (document_processing.py line 959): the float literal,
i.e. the double nearest 0.01. -/
def tolerance : Rat := pyFloat0_01

/-- The Python float `100.01` (e.g. `float(...)` of an extracted receipt total
of 100.01) denotes the double nearest 100.01, whose exact value is
7037578105208177 / 2^46 — slightly more than 10001/100. -/
def pyFloat100_01 : Rat := 7037578105208177 / 70368744177664

/-- The item-count comparison (document_processing.py lines 948-954). -/
def itemCountDiscrepancies (poItems : List RequestItem)
    (receiptItems : List ReceiptItem) : List Discrepancy :=
  if receiptItems.length ≠ poItems.length then
    [⟨"item_count_mismatch", .count poItems.length, .count receiptItems.length⟩]
  else []

/-- The total-amount comparison (document_processing.py lines 956-967):
`abs(receipt_total - po_total) > tolerance` over doubles, emitting a single
total-level `price_mismatch` with `expected` the PO amount and `actual` the
receipt total.  `receiptTotal` and `poTotal` are the exact rational values of
the doubles `float(receipt_data.get('total', 0))` and
`float(purchase_request.amount)`; the subtraction is exact rational
subtraction (equal to the IEEE subtraction whenever that is exact, e.g. under
Sterbenz's condition). -/
def totalPriceDiscrepancies (receiptTotal poTotal : Rat) : List Discrepancy :=
  if |receiptTotal - poTotal| > tolerance then
    [⟨"price_mismatch", .num poTotal, .num receiptTotal⟩]
  else []

/-- `po_item.description.lower() in receipt_item.get('description','').lower()`:
case-insensitive substring containment. -/
def descMatches (poDesc riDesc : String) : Bool :=
  decide ((poDesc.toList.map Char.toLower) <:+: (riDesc.toList.map Char.toLower))

/-- The per-PO-item comparison (document_processing.py lines 970-1005): the
first receipt item whose description contains the PO item's is compared on
quantity and unit price; a missing match yields an `item_mismatch`. -/
def itemDiscrepanciesFor (poItem : RequestItem)
    (receiptItems : List ReceiptItem) : List Discrepancy :=
  match receiptItems.find? (fun ri => descMatches poItem.description ri.description) with
  | some ri =>
      (if |ri.quantity - (poItem.quantity : Rat)| > pyFloat0_01 then
        [⟨"quantity_mismatch", .num (poItem.quantity : Rat), .num ri.quantity⟩]
      else []) ++
      (if |ri.unit_price - poItem.unit_price| > tolerance then
        [⟨"price_mismatch", .num poItem.unit_price, .num ri.unit_price⟩]
      else [])
  | none => [⟨"item_mismatch", .str poItem.description, .str "Not found"⟩]

/-- The full discrepancy list assembled by `validate_receipt`
(document_processing.py lines 939-1005): item-count check, then the
total-level price check, then the per-item checks in PO-item order. -/
def validate_receipt_discrepancies (poItems : List RequestItem) (poAmount : Rat)
    (receipt : ReceiptData) : List Discrepancy :=
  itemCountDiscrepancies poItems receipt.items ++
  totalPriceDiscrepancies receipt.total poAmount ++
  (poItems.map (fun p => itemDiscrepanciesFor p receipt.items)).flatten

/-- `is_valid = len(discrepancies) == 0` (document_processing.py line 1008). -/
def validate_receipt_valid (poItems : List RequestItem) (poAmount : Rat)
    (receipt : ReceiptData) : Bool :=
  (validate_receipt_discrepancies poItems poAmount receipt).length = 0

/-- C8 evidence: at an extracted receipt total of 100.01 against a PO amount
of 100.00 — a decimal difference of exactly 0.01 — the program compares
abs(double(100.01) - double(100.0)) = 703687441777 / 2^46
(about 0.010000000000005116; the IEEE subtraction is exact here by Sterbenz's
lemma, the operands lying within a factor of two) against double(0.01)
(about 0.01000000000000000021) and finds it larger, so it DOES emit a
total-level `price_mismatch` — contradicting the claim that a difference of
exactly 0.01 yields none. -/
theorem receipt_total_exact_one_cent_diff_still_mismatch :
    totalPriceDiscrepancies pyFloat100_01 100
      = [⟨"price_mismatch", .num 100, .num pyFloat100_01⟩] ∧
    |pyFloat100_01 - 100| > tolerance := by
  have hgt : |pyFloat100_01 - (100 : Rat)| > tolerance := by
    have hpos : (0 : Rat) < pyFloat100_01 - 100 := by
      simp only [pyFloat100_01]
      norm_num
    rw [abs_of_pos hpos]
    simp only [pyFloat100_01, tolerance, pyFloat0_01]
    norm_num
  constructor
  · simp only [totalPriceDiscrepancies]
    rw [if_pos hgt]
  · exact hgt

/-! ## Approve/reject action (views.py `_handle_approval_action`,
lines 612-740) -/

/-- The state `_handle_approval_action` reads and writes: the purchase
request's status and final approver, the `ApprovalLevel` rows configured for
the request's type, and the `Approval` rows of this request. -/
structure ApprovalState where
  status : String
  approvedBy : Option Nat
  levels : List ApprovalLevel
  approvals : List Approval
deriving DecidableEq, Repr

/-- Outcome of `_handle_approval_action`: an HTTP error response, or the
updated state together with whether the purchase-order-generation background
task was enqueued. -/
inductive ApprovalActionResult where
  | error (httpStatus : Nat) (msg : String)
  | ok (st : ApprovalState) (poTaskEnqueued : Bool)
deriving DecidableEq, Repr

/-- The ordering used by `order_by('level_number')`. -/
def byLevelNumber (a b : ApprovalLevel) : Prop :=
  a.levelNumber ≤ b.levelNumber

instance : DecidableRel byLevelNumber :=
  fun a b => Nat.decLe a.levelNumber b.levelNumber

instance : IsTotal ApprovalLevel byLevelNumber :=
  ⟨fun a b => Nat.le_total a.levelNumber b.levelNumber⟩

instance : IsTrans ApprovalLevel byLevelNumber :=
  ⟨fun _ _ _ => Nat.le_trans⟩

/-- `ApprovalLevel.objects.filter(request_type=..., is_required=True)
.order_by('level_number')` (views.py lines 638-641). -/
def orderedApprovalLevels (levels : List ApprovalLevel) : List ApprovalLevel :=
  List.insertionSort byLevelNumber (levels.filter (·.isRequired))

/-- `values_list('approval_level', flat=True).distinct().count()` over the
approvals of the request with `action='approved'` (views.py lines 719-722). -/
def countDistinctApprovedLevels (approvals : List Approval) : Nat :=
  (((approvals.filter (fun a => a.action == "approved")).map (·.levelNumber)).dedup).length

/-- `PurchaseRequestViewSet._handle_approval_action` (views.py lines 612-740):
profile resolution (superusers skip it), pending-status check, required-level
lookup, level selection (first role match in ascending level order for
ordinary approvers, the last configured level for superusers), duplicate
check, re-check of the status under the row lock, creation of the Approval
record, and the rejected/approved status update with the purchase-order task
enqueued when every required level is covered. -/
def handleApprovalAction (st : ApprovalState) (user : Caller) (action : String) :
    ApprovalActionResult :=
  if !user.isSuperuser && user.profileRole.isNone then
    .error 400 "User profile not found."
  else if st.status != "pending" then
    .error 400 ("Cannot " ++ action ++ " request that is not in pending status.")
  else
    match orderedApprovalLevels st.levels with
    | [] => .error 400 "No approval levels configured for this request type."
    | l0 :: ls =>
        let user_approval_level? : Option ApprovalLevel :=
          if user.isSuperuser then
            some ((l0 :: ls).getLast (List.cons_ne_nil l0 ls))
          else
            (l0 :: ls).find? (fun l => some l.approverRole == user.profileRole)
        match user_approval_level? with
        | none =>
            .error 403 "User role is not authorized to approve this request type."
        | some lvl =>
            if st.approvals.any
                (fun a => a.levelNumber == lvl.levelNumber && a.approver == user.id) then
              .error 400 "You have already provided approval for this request at this level."
            else if st.status != "pending" then
              .error 400 ("Request status has changed. Current status: " ++ st.status)
            else
              let approvals' := st.approvals ++ [⟨user.id, lvl.levelNumber, action⟩]
              if action == "rejected" then
                .ok { st with status := "rejected", approvals := approvals' } false
              else
                let required_levels := (l0 :: ls).length
                let approved_levels := countDistinctApprovedLevels approvals'
                if approved_levels ≥ required_levels then
                  .ok { st with
                          status := "approved"
                          approvedBy := some user.id
                          approvals := approvals' } true
                else
                  .ok { st with approvals := approvals' } false

/-- In a list sorted by level number, `find?` returns an element whose level
number is minimal among all elements satisfying the predicate. -/
theorem find_sorted_levelNumber_le {p : ApprovalLevel → Bool} {x : ApprovalLevel} :
    ∀ {l : List ApprovalLevel}, List.Sorted byLevelNumber l → l.find? p = some x →
      ∀ y ∈ l, p y = true → x.levelNumber ≤ y.levelNumber := by
  intro l
  induction l with
  | nil =>
      intro _ hf
      simp at hf
  | cons a t ih =>
      intro hs hf y hy hpy
      by_cases hpa : p a = true
      · rw [List.find?_cons_of_pos _ hpa] at hf
        cases hf
        rcases List.mem_cons.mp hy with h | h
        · subst h
          exact le_refl _
        · exact List.rel_of_sorted_cons hs y h
      · rw [List.find?_cons_of_neg _ (by simpa using hpa)] at hf
        rcases List.mem_cons.mp hy with h | h
        · subst h
          exact absurd hpy hpa
        · exact ih hs.of_cons hf y h hpy

/-- Membership in the ordered required-level list. -/
theorem mem_orderedApprovalLevels {levels : List ApprovalLevel} {l : ApprovalLevel} :
    l ∈ orderedApprovalLevels levels ↔ l ∈ levels ∧ l.isRequired = true := by
  unfold orderedApprovalLevels
  rw [List.mem_insertionSort, List.mem_filter]

/-- The ordered required-level list is sorted by level number. -/
theorem sorted_orderedApprovalLevels (levels : List ApprovalLevel) :
    List.Sorted byLevelNumber (orderedApprovalLevels levels) :=
  List.sorted_insertionSort byLevelNumber _

/-- Counting distinct approved levels against the required-level count:
when every approval sits at some required level of the configured list (the
invariant maintained by the endpoint, which only ever records approvals at
required levels of the request's type) and level numbers are unique
(`unique_together`), the distinct-count comparison of
`_handle_approval_action` is equivalent to every required level having at
least one approved-action approval. -/
theorem countDistinct_ge_iff_cover
    (levels : List ApprovalLevel) (approvals : List Approval)
    (hnd : (levels.map (·.levelNumber)).Nodup)
    (hsub : ∀ a ∈ approvals, ∃ l ∈ levels,
      l.isRequired = true ∧ a.levelNumber = l.levelNumber) :
    ((levels.filter (·.isRequired)).length ≤ countDistinctApprovedLevels approvals ↔
      ∀ l ∈ levels, l.isRequired = true →
        ∃ a ∈ approvals, a.action = "approved" ∧ a.levelNumber = l.levelNumber) := by
  classical
  have hndf : ((levels.filter (·.isRequired)).map (·.levelNumber)).Nodup :=
    hnd.sublist ((levels.filter_sublist).map (·.levelNumber))
  have hlen : (levels.filter (·.isRequired)).length
      = ((levels.filter (·.isRequired)).map (·.levelNumber)).toFinset.card := by
    rw [List.toFinset_card_of_nodup hndf, List.length_map]
  have hcount : countDistinctApprovedLevels approvals
      = ((approvals.filter (fun a => a.action == "approved")).map
          (·.levelNumber)).toFinset.card := by
    rw [List.card_toFinset]
    rfl
  have hSsubR :
      ((approvals.filter (fun a => a.action == "approved")).map
          (·.levelNumber)).toFinset
        ⊆ ((levels.filter (·.isRequired)).map (·.levelNumber)).toFinset := by
    intro x hx
    rw [List.mem_toFinset, List.mem_map] at hx
    obtain ⟨a, ha, rfl⟩ := hx
    rw [List.mem_filter] at ha
    obtain ⟨l, hl, hreq, hnum⟩ := hsub a ha.1
    rw [List.mem_toFinset, List.mem_map]
    exact ⟨l, List.mem_filter.mpr ⟨hl, hreq⟩, hnum.symm⟩
  have hcover :
      (∀ l ∈ levels, l.isRequired = true →
          ∃ a ∈ approvals, a.action = "approved" ∧ a.levelNumber = l.levelNumber)
        ↔ ((levels.filter (·.isRequired)).map (·.levelNumber)).toFinset
            ⊆ ((approvals.filter (fun a => a.action == "approved")).map
                (·.levelNumber)).toFinset := by
    constructor
    · intro h x hx
      rw [List.mem_toFinset, List.mem_map] at hx
      obtain ⟨l, hl, rfl⟩ := hx
      rw [List.mem_filter] at hl
      obtain ⟨a, ha, hact, hnum⟩ := h l hl.1 hl.2
      rw [List.mem_toFinset, List.mem_map]
      refine ⟨a, ?_, hnum⟩
      rw [List.mem_filter]
      exact ⟨ha, by simp [hact]⟩
    · intro h l hl hreq
      have hx : l.levelNumber
          ∈ ((levels.filter (·.isRequired)).map (·.levelNumber)).toFinset := by
        rw [List.mem_toFinset, List.mem_map]
        exact ⟨l, List.mem_filter.mpr ⟨hl, hreq⟩, rfl⟩
      have hx' := h hx
      rw [List.mem_toFinset, List.mem_map] at hx'
      obtain ⟨a, ha, hnum⟩ := hx'
      rw [List.mem_filter] at ha
      exact ⟨a, ha.1, by simpa using ha.2, hnum⟩
  constructor
  · intro hge
    rw [hcover]
    have hcard :
        ((levels.filter (·.isRequired)).map (·.levelNumber)).toFinset.card
          ≤ ((approvals.filter (fun a => a.action == "approved")).map
              (·.levelNumber)).toFinset.card := by
      rw [← hlen, ← hcount]
      exact hge
    have hEq := Finset.eq_of_subset_of_card_le hSsubR hcard
    intro x hx
    rw [hEq]
    exact hx
  · intro hcov
    rw [hcover] at hcov
    rw [hlen, hcount]
    exact Finset.card_le_card hcov

/-- C1: whenever the approve endpoint succeeds on a pending request, the
purchase-order-generation task is enqueued if and only if every required
approval level of the request's type now has at least one approved-action
Approval; in that case the status becomes `approved` and `approved_by` is the
acting caller, and otherwise the request remains `pending` with `approved_by`
unchanged.  The hypotheses are the database invariants: level numbers are
unique per request type (`unique_together`), and every recorded approval sits
at a required level of the request's type (the endpoint only ever records
approvals at such levels). -/
theorem approve_sets_status_iff_all_levels_covered
    (st : ApprovalState) (user : Caller) (st' : ApprovalState) (enq : Bool)
    (hndLevels : (st.levels.map (·.levelNumber)).Nodup)
    (hwfApprovals : ∀ a ∈ st.approvals, ∃ l ∈ st.levels,
      l.isRequired = true ∧ a.levelNumber = l.levelNumber)
    (hok : handleApprovalAction st user "approved" = .ok st' enq) :
    (enq = true ↔ ∀ l ∈ st.levels, l.isRequired = true →
        ∃ a ∈ st'.approvals, a.action = "approved" ∧ a.levelNumber = l.levelNumber) ∧
    (enq = true → st'.status = "approved" ∧ st'.approvedBy = some user.id) ∧
    (enq = false → st'.status = "pending" ∧ st'.approvedBy = st.approvedBy) := by
  simp only [handleApprovalAction] at hok
  split at hok
  · exact ApprovalActionResult.noConfusion hok
  · split at hok
    · exact ApprovalActionResult.noConfusion hok
    · rename_i hstatus
      have hpend : st.status = "pending" := by simpa using hstatus
      split at hok
      · exact ApprovalActionResult.noConfusion hok
      · rename_i l0 ls heq
        split at hok
        · exact ApprovalActionResult.noConfusion hok
        · rename_i lvl hfind
          split at hok
          · exact ApprovalActionResult.noConfusion hok
          · split at hok
            · rename_i hrej
              exact absurd hrej (by decide)
            · have hlvlC : lvl ∈ l0 :: ls := by
                by_cases hsu : user.isSuperuser = true
                · rw [if_pos hsu] at hfind
                  have h' := Option.some.inj hfind
                  rw [← h']
                  exact List.getLast_mem _
                · rw [if_neg hsu] at hfind
                  exact List.mem_of_find?_eq_some hfind
              have hlvlO : lvl ∈ orderedApprovalLevels st.levels := by
                rw [heq]
                exact hlvlC
              obtain ⟨hmem, hreq⟩ := mem_orderedApprovalLevels.mp hlvlO
              have hsub' : ∀ a ∈ st.approvals
                  ++ [(⟨user.id, lvl.levelNumber, "approved"⟩ : Approval)],
                  ∃ l ∈ st.levels,
                    l.isRequired = true ∧ a.levelNumber = l.levelNumber := by
                intro a ha
                rcases List.mem_append.mp ha with h | h
                · exact hwfApprovals a h
                · have ha' : a = ⟨user.id, lvl.levelNumber, "approved"⟩ := by
                    simpa using h
                  subst ha'
                  exact ⟨lvl, hmem, hreq, rfl⟩
              have hlen0 : (orderedApprovalLevels st.levels).length
                  = (st.levels.filter (·.isRequired)).length := by
                unfold orderedApprovalLevels
                exact List.length_insertionSort _ _
              rw [heq] at hlen0
              have hiff := countDistinct_ge_iff_cover st.levels
                (st.approvals ++ [(⟨user.id, lvl.levelNumber, "approved"⟩ : Approval)])
                hndLevels hsub'
              split at hok
              · rename_i hc
                injection hok with h1 h2
                subst h1
                subst h2
                have hcov := hiff.mp (le_of_eq_of_le hlen0.symm hc)
                exact ⟨⟨fun _ => hcov, fun _ => rfl⟩,
                  fun _ => ⟨rfl, rfl⟩, fun hf => absurd hf (by decide)⟩
              · rename_i hc
                injection hok with h1 h2
                subst h1
                subst h2
                exact ⟨⟨fun hf => absurd hf (by decide),
                    fun hcov => absurd (le_of_eq_of_le hlen0 (hiff.mpr hcov)) hc⟩,
                  fun hf => absurd hf (by decide),
                  fun _ => ⟨hpend, rfl⟩⟩

/-- Witness for `approve_sets_status_iff_all_levels_covered`: a two-level
request type (level 1 approver_level_1, level 2 approver_level_2) where level
1 has already approved and the level-2 approver now approves — every level is
covered, the status becomes approved with the level-2 approver recorded, and
the purchase-order task is enqueued. -/
theorem approve_sets_status_iff_all_levels_covered_witness :
    (∀ l ∈ ([⟨1, "approver_level_1", true⟩,
        ⟨2, "approver_level_2", true⟩] : List ApprovalLevel),
      l.isRequired = true →
        ∃ a ∈ ([⟨10, 1, "approved"⟩, ⟨20, 2, "approved"⟩] : List Approval),
          a.action = "approved" ∧ a.levelNumber = l.levelNumber) ∧
    handleApprovalAction
        ⟨"pending", none,
          [⟨1, "approver_level_1", true⟩, ⟨2, "approver_level_2", true⟩],
          [⟨10, 1, "approved"⟩]⟩
        ⟨20, true, false, some "approver_level_2"⟩ "approved"
      = .ok
          ⟨"approved", some 20,
            [⟨1, "approver_level_1", true⟩, ⟨2, "approver_level_2", true⟩],
            [⟨10, 1, "approved"⟩, ⟨20, 2, "approved"⟩]⟩ true := by
  have h := approve_sets_status_iff_all_levels_covered
    ⟨"pending", none,
      [⟨1, "approver_level_1", true⟩, ⟨2, "approver_level_2", true⟩],
      [⟨10, 1, "approved"⟩]⟩
    ⟨20, true, false, some "approver_level_2"⟩
    ⟨"approved", some 20,
      [⟨1, "approver_level_1", true⟩, ⟨2, "approver_level_2", true⟩],
      [⟨10, 1, "approved"⟩, ⟨20, 2, "approved"⟩]⟩ true
    (by decide) (by decide) (by decide)
  exact ⟨h.1.mp rfl, by decide⟩

/-- C10: when a non-superuser approver whose profile role matches at least one
required level acts on a request (approve or reject), the decision is recorded
at the level returned by scanning the required levels in ascending
level-number order for the first role match — a level whose number is minimal
among all required levels sharing the caller's role, so the approver can never
record a decision at a higher-numbered level with the same role. -/
theorem approval_recorded_at_lowest_matching_level
    (st : ApprovalState) (user : Caller) (action r : String)
    (st' : ApprovalState) (enq : Bool)
    (hsu : user.isSuperuser = false)
    (hrole : user.profileRole = some r)
    (hok : handleApprovalAction st user action = .ok st' enq) :
    ∃ lvl : ApprovalLevel,
      lvl ∈ st.levels ∧ lvl.isRequired = true ∧ lvl.approverRole = r ∧
      st'.approvals = st.approvals ++ [⟨user.id, lvl.levelNumber, action⟩] ∧
      ∀ l ∈ st.levels, l.isRequired = true → l.approverRole = r →
        lvl.levelNumber ≤ l.levelNumber := by
  simp only [handleApprovalAction] at hok
  split at hok
  · exact ApprovalActionResult.noConfusion hok
  · split at hok
    · exact ApprovalActionResult.noConfusion hok
    · split at hok
      · exact ApprovalActionResult.noConfusion hok
      · rename_i l0 ls heq
        split at hok
        · exact ApprovalActionResult.noConfusion hok
        · rename_i lvl hfind
          rw [if_neg (by simp [hsu])] at hfind
          have hmemC : lvl ∈ l0 :: ls := List.mem_of_find?_eq_some hfind
          have hmemO : lvl ∈ orderedApprovalLevels st.levels := by
            rw [heq]
            exact hmemC
          obtain ⟨hmem, hreq⟩ := mem_orderedApprovalLevels.mp hmemO
          have hp := List.find?_some hfind
          rw [hrole] at hp
          have hrole' : lvl.approverRole = r := by simpa using hp
          have hsorted : List.Sorted byLevelNumber (l0 :: ls) := by
            rw [← heq]
            exact sorted_orderedApprovalLevels st.levels
          have hmin : ∀ l ∈ st.levels, l.isRequired = true → l.approverRole = r →
              lvl.levelNumber ≤ l.levelNumber := by
            intro l hl hlreq hlrole
            have hlC : l ∈ l0 :: ls := by
              rw [← heq]
              exact mem_orderedApprovalLevels.mpr ⟨hl, hlreq⟩
            refine find_sorted_levelNumber_le hsorted hfind l hlC ?_
            rw [hrole, hlrole]
            simp
          split at hok
          · exact ApprovalActionResult.noConfusion hok
          · split at hok
            · injection hok with h1 h2
              subst h1
              exact ⟨lvl, hmem, hreq, hrole', rfl, hmin⟩
            · split at hok
              · injection hok with h1 h2
                subst h1
                exact ⟨lvl, hmem, hreq, hrole', rfl, hmin⟩
              · injection hok with h1 h2
                subst h1
                exact ⟨lvl, hmem, hreq, hrole', rfl, hmin⟩

/-- Witness for `approval_recorded_at_lowest_matching_level`: both required
levels of the type share role approver_level_1; an approver with that role
records the decision at level 1, the lowest-numbered match. -/
theorem approval_recorded_at_lowest_matching_level_witness :
    ∃ lvl : ApprovalLevel,
      lvl ∈ ([⟨1, "approver_level_1", true⟩,
          ⟨2, "approver_level_1", true⟩] : List ApprovalLevel) ∧
      lvl.isRequired = true ∧ lvl.approverRole = "approver_level_1" ∧
      ([⟨20, 1, "approved"⟩] : List Approval)
        = [] ++ [⟨20, lvl.levelNumber, "approved"⟩] ∧
      ∀ l ∈ ([⟨1, "approver_level_1", true⟩,
          ⟨2, "approver_level_1", true⟩] : List ApprovalLevel),
        l.isRequired = true → l.approverRole = "approver_level_1" →
          lvl.levelNumber ≤ l.levelNumber :=
  approval_recorded_at_lowest_matching_level
    ⟨"pending", none,
      [⟨1, "approver_level_1", true⟩, ⟨2, "approver_level_1", true⟩], []⟩
    ⟨20, true, false, some "approver_level_1"⟩ "approved" "approver_level_1"
    ⟨"pending", none,
      [⟨1, "approver_level_1", true⟩, ⟨2, "approver_level_1", true⟩],
      [⟨20, 1, "approved"⟩]⟩ false rfl rfl (by decide)
